import Mathlib

/-!
Shallow embedding of the chess rules engine in
`topics/06-interview-prep/case-studies/chess/implementation.cpp`.

The C++ classes are translated to value-level Lean definitions:
`Position` (int row/col, possibly out of range, so `Int` fields),
`Piece` (color, stored square, has-moved flag, kind tag — the virtual
subclass hierarchy collapses to a `type` field dispatching `pieceMoves`),
`Board` (the 8x8 `unique_ptr` grid becomes a function from `Position`
to `Option Piece`; all access in the source goes through the
bounds-guarded `getPiece`/`setPiece`/`movePiece`, which are modelled
with the same guards), `Move` and `GameState` as records.

The source implements only the `Pawn` subclass; the other five piece
generators are present in the source only as the comment "Similar
implementations for other pieces..." and are modelled from the spec
(section 4.3), as is the back-rank half of the stubbed board setup.
Each such definition carries a `Modelled from the spec:` doc comment.

Pointer semantics: the C++ mutates pieces through `Piece*` aliases into
the board (`move.getPiece()->setHasMoved(...)`).  In this value model
those writes are performed at the square where the aliased object lives
at that moment, which is tracked explicitly (see `executeMove` and
`undoMove`).
-/

namespace Chess

inductive Color where
  | WHITE
  | BLACK
deriving DecidableEq

export Color (WHITE BLACK)

inductive PieceType where
  | PAWN
  | ROOK
  | KNIGHT
  | BISHOP
  | QUEEN
  | KING
deriving DecidableEq

export PieceType (PAWN ROOK KNIGHT BISHOP QUEEN KING)

/-- Position: row/col are C++ `int`s and the string constructor can
produce out-of-range values, hence `Int` fields. -/
structure Position where
  row : Int
  col : Int
deriving DecidableEq

/-- Constructor `Position(const string&)` (implementation.cpp:30-36):
throws `invalid_argument` exactly when the length is not 2, then takes
`col = notation[0] - 'a'` and `row = 8 - (notation[1] - '0')` with no
range check on the characters.  The throw is modelled as `none`. -/
def Position.ofAlg (s : String) : Option Position :=
  match s.data with
  | [c0, c1] => some ⟨8 - ((c1.toNat : Int) - 48), (c0.toNat : Int) - 97⟩
  | _ => none

/-- Method `getNotation` (implementation.cpp:41-46): `'a' + col` and
`'0' + (8 - row)`. -/
def Position.toAlg (p : Position) : String :=
  ⟨[Char.ofNat (97 + p.col.toNat), Char.ofNat (48 + (8 - p.row).toNat)]⟩

/-- Method `isValid` (implementation.cpp:48-50). -/
def Position.isValid (p : Position) : Bool :=
  decide (0 ≤ p.row) && decide (p.row < 8) && decide (0 ≤ p.col) && decide (p.col < 8)

/-- A piece value: the `Piece` base-class data (color, the piece's own
stored `position` field — which the engine never updates on a move —
and `hasMoved`) plus the subclass tag returned by `getType()`. -/
structure Piece where
  color : Color
  position : Position
  hasMoved : Bool
  type : PieceType
deriving DecidableEq

/-- The board: the guarded 8x8 `unique_ptr` grid as a total function;
out-of-range squares are only ever read/written through the guarded
accessors below, mirroring the source. -/
def Board : Type := Position → Option Piece

/-- Method `Board::getPiece` (implementation.cpp:103-106). -/
def getPiece (b : Board) (pos : Position) : Option Piece :=
  if pos.isValid then b pos else none

/-- Method `Board::setPiece` (implementation.cpp:108-111): silently
ignores out-of-range positions. -/
def setPiece (b : Board) (pos : Position) (v : Option Piece) : Board :=
  if pos.isValid then (fun q => if q = pos then v else b q) else b

/-- Method `Board::movePiece` (implementation.cpp:113-116):
`squares[to] = move(squares[from])` — the destination receives the
source occupant and the source slot is left empty (the moved-from
`unique_ptr` becomes null); a no-op when either square is off-board. -/
def movePiece (b : Board) (f t : Position) : Board :=
  if f.isValid && t.isValid then
    (fun q => if q = t then b f else if q = f then none else b q)
  else b

/-- Rewrites the occupant at a square in place; this models a mutation
performed through a `Piece*` alias to the object living at `pos`. -/
def mapAt (b : Board) (pos : Position) (g : Piece → Piece) : Board :=
  fun q => if q = pos then Option.map g (b pos) else b q

/-- Move record (class `Move`, implementation.cpp:58-90).  The
`piece` field stores the mover's value at creation time; the C++ keeps a
`Piece*` and the only later reads through it are of the immutable type
tag (`updateGameState`) and of state that is re-read from the board in
this model (see `undoMove`). -/
structure Move where
  fromPos : Position
  toPos : Position
  piece : Piece
  capturedPiece : Option Piece
  isCastling : Bool
  isEnPassant : Bool
  isPromotion : Bool
  promotionType : Option PieceType

/-- Pawn pseudo-legal moves (Pawn::getValidMoves,
implementation.cpp:160-194), computed from the piece's own stored
`position` field: forward step when empty, double step when the piece
has not moved and the double square is empty (the source checks the
double square only through the guarded `getPiece`, with no explicit
validity test), then the two diagonal captures onto enemy occupants. -/
def pawnMoves (p : Piece) (b : Board) : List Position :=
  let direction : Int := if p.color = WHITE then -1 else 1
  let forward : Position := ⟨p.position.row + direction, p.position.col⟩
  let forwardPart : List Position :=
    if forward.isValid && (getPiece b forward).isNone then
      forward ::
        (if !p.hasMoved then
          (let doubleForward : Position := ⟨p.position.row + 2 * direction, p.position.col⟩
           if (getPiece b doubleForward).isNone then [doubleForward] else [])
         else [])
    else []
  let captures : List Position :=
    [⟨p.position.row + direction, p.position.col - 1⟩,
     ⟨p.position.row + direction, p.position.col + 1⟩]
  forwardPart ++ captures.filter (fun cap =>
    cap.isValid && (match getPiece b cap with
      | some t => decide (t.color ≠ p.color)
      | none => false))

/-- Modelled from the spec: knight pseudo-legal moves — the source holds
only the comment "Similar implementations for other pieces..."; spec
section 4.3: "the 8 fixed-offset jumps, filtered to board bounds and not
landing on a same-color occupant". -/
def knightMoves (p : Piece) (b : Board) : List Position :=
  ([(-2, -1), (-2, 1), (-1, -2), (-1, 2), (1, -2), (1, 2), (2, -1), (2, 1)] :
      List (Int × Int)).filterMap (fun d =>
    let q : Position := ⟨p.position.row + d.1, p.position.col + d.2⟩
    if q.isValid && (match getPiece b q with
        | some t => decide (t.color ≠ p.color)
        | none => true) then some q else none)

/-- Modelled from the spec: king pseudo-legal moves (spec section 4.3:
"the 8 adjacent squares, excluding same-color occupants"; castling is a
GameEngine augmentation and the engine's handleCastling is an empty
stub). -/
def kingMoves (p : Piece) (b : Board) : List Position :=
  ([(-1, -1), (-1, 0), (-1, 1), (0, -1), (0, 1), (1, -1), (1, 0), (1, 1)] :
      List (Int × Int)).filterMap (fun d =>
    let q : Position := ⟨p.position.row + d.1, p.position.col + d.2⟩
    if q.isValid && (match getPiece b q with
        | some t => decide (t.color ≠ p.color)
        | none => true) then some q else none)

/-- Modelled from the spec: one ray of a sliding piece (spec section
4.3: "ray-casts along diagonals/files-ranks/both, stopping at the first
occupied square (included as a destination only if it is an enemy
piece)").  The fuel bounds the walk at the board diameter. -/
def ray (b : Board) (c : Color) (pos : Position) (d : Int × Int) : Nat → List Position
  | 0 => []
  | n + 1 =>
    let next : Position := ⟨pos.row + d.1, pos.col + d.2⟩
    if next.isValid then
      match getPiece b next with
      | none => next :: ray b c next d n
      | some t => if t.color ≠ c then [next] else []
    else []

def rookDirs : List (Int × Int) := [(-1, 0), (1, 0), (0, -1), (0, 1)]

def bishopDirs : List (Int × Int) := [(-1, -1), (-1, 1), (1, -1), (1, 1)]

/-- Modelled from the spec: sliding-piece pseudo-legal moves, the union
of the rays in the given directions. -/
def slidingMoves (p : Piece) (b : Board) (dirs : List (Int × Int)) : List Position :=
  dirs.foldr (fun d acc => ray b p.color p.position d 8 ++ acc) []

/-- Virtual dispatch of `getValidMoves` over the piece subclasses.  Only
the pawn branch is implemented in the source; the rest are modelled from
the spec (section 4.3). -/
def pieceMoves (p : Piece) (b : Board) : List Position :=
  match p.type with
  | PAWN => pawnMoves p b
  | KNIGHT => knightMoves p b
  | BISHOP => slidingMoves p b bishopDirs
  | ROOK => slidingMoves p b rookDirs
  | QUEEN => slidingMoves p b (rookDirs ++ bishopDirs)
  | KING => kingMoves p b

/-- Method `canMoveTo` (implementation.cpp:196-199): membership in the
generated pseudo-legal move list. -/
def canMoveTo (p : Piece) (pos : Position) (b : Board) : Bool :=
  decide (pos ∈ pieceMoves p b)

def opponent : Color → Color
  | WHITE => BLACK
  | BLACK => WHITE

/-- The aggregate game state (class `GameState`,
implementation.cpp:207-226).  The C++ constructor leaves the four rook
flags and `enPassantTarget` uninitialized (the rook arrays get no
initializer, and `Position` has no default constructor); they are
modelled as `false` and a8.  Neither is ever written by the engine, so
every value read from them is the constant chosen here, and no theorem
below depends on the particular choice.  `positionHistory` models the
`unordered_map<string,int>` as an association list. -/
structure GameState where
  board : Board
  currentPlayer : Color
  moveHistory : List Move
  whiteKingMoved : Bool
  blackKingMoved : Bool
  whiteRookMoved0 : Bool
  whiteRookMoved1 : Bool
  blackRookMoved0 : Bool
  blackRookMoved1 : Bool
  enPassantTarget : Position
  halfMoveClock : Nat
  fullMoveNumber : Nat
  positionHistory : List (String × Nat)

/-- All 64 squares in the row-major order of the source's double
`for` loops. -/
def allPositions : List Position :=
  ((List.range 8).map (fun r =>
    (List.range 8).map (fun c => (⟨(r : Int), (c : Int)⟩ : Position)))).flatten

/-- King scan of `isCheck` (implementation.cpp:262-272): the inner
`break` leaves the row loop running, so a king found in a later row
overwrites one found earlier; within a row the first column wins. -/
def findKing (b : Board) (c : Color) : Option Position :=
  (List.range 8).foldl (fun acc r =>
    match (List.range 8).find? (fun col =>
        match getPiece b ⟨(r : Int), (col : Int)⟩ with
        | some p => p.type = KING && p.color = c
        | none => false) with
    | some col => some ⟨(r : Int), (col : Int)⟩
    | none => acc) none

/-- Method `isCheck` (implementation.cpp:260-288): locate the king, then
ask every opposing piece whether it `canMoveTo` the king's square.  If no
king of the color exists the C++ reads an uninitialized `Position`
(`Position` has no default constructor); that branch is modelled as
`false` and is never exercised by the theorems below, which all place
the required king on the board. -/
def isCheck (b : Board) (c : Color) : Bool :=
  match findKing b c with
  | none => false
  | some kingPos =>
    allPositions.any (fun q =>
      match getPiece b q with
      | some p => p.color = opponent c && canMoveTo p kingPos b
      | none => false)

/-- Method `isCheckmate` (implementation.cpp:290-314), statement for
statement: if not in check, false; otherwise for every piece of the
color and every pseudo-legal move, copy the board, apply the move to the
copy (`tempBoard`, taken from `piece->getPosition()`, the piece's stored
square) — and then test `isCheck(color)` on the live board, exactly as
the source does (the copy is never consulted). -/
def isCheckmate (g : GameState) (c : Color) : Bool :=
  if !(isCheck g.board c) then false
  else
    !(allPositions.any (fun q =>
      match getPiece g.board q with
      | some p =>
        p.color = c && (pieceMoves p g.board).any (fun mv =>
          let _tempBoard := movePiece g.board p.position mv
          !(isCheck g.board c))
      | none => false))

/-- Method `isStalemate` (implementation.cpp:316-333): false when in
check, otherwise true exactly when every piece of the color has an empty
pseudo-legal move list (no king-safety filtering of any kind). -/
def isStalemate (g : GameState) (c : Color) : Bool :=
  if isCheck g.board c then false
  else
    !(allPositions.any (fun q =>
      match getPiece g.board q with
      | some p => p.color = c && !(pieceMoves p g.board).isEmpty
      | none => false))

/-- Method `GameState::getValidMoves` (implementation.cpp:348-367): the
piece's pseudo-legal moves filtered by the same pattern as
`isCheckmate` — a trial copy is made and moved on (from the queried
`pos` this time) but the check test reads the live board. -/
def getValidMovesAt (g : GameState) (pos : Position) : List Position :=
  match getPiece g.board pos with
  | none => []
  | some p =>
    (pieceMoves p g.board).filter (fun mv =>
      let _tempBoard := movePiece g.board pos mv
      !(isCheck g.board p.color))

/-- Method `isInsufficientMaterial` (implementation.cpp:501-504):
`return false;  // Simplified`. -/
def isInsufficientMaterial (_g : GameState) : Bool := false

/-- Method `isThreefoldRepetition` (implementation.cpp:506-511): some
recorded position key has occurrence count at least 3. -/
def isThreefoldRepetition (g : GameState) : Bool :=
  g.positionHistory.any (fun e => decide (3 ≤ e.2))

/-- Method `isDraw` (implementation.cpp:335-346): insufficient material,
threefold repetition, or `halfMoveClock >= 50`. -/
def isDraw (g : GameState) : Bool :=
  isInsufficientMaterial g || isThreefoldRepetition g || decide (50 ≤ g.halfMoveClock)

/-- Method `getPieceChar` (implementation.cpp:513-524). -/
def pieceChar (p : Piece) : Char :=
  let c : Char :=
    match p.type with
    | PAWN => 'p'
    | ROOK => 'r'
    | KNIGHT => 'n'
    | BISHOP => 'b'
    | QUEEN => 'q'
    | KING => 'k'
  if p.color = WHITE then c.toUpper else c

/-- One rank of the FEN board field (implementation.cpp:395-413):
run-length encoding of empty squares, left to right. -/
def fenRow (b : Board) (r : Nat) : String :=
  let fin := (List.range 8).foldl (fun (st : Nat × String) c =>
    match getPiece b ⟨(r : Int), (c : Int)⟩ with
    | some p =>
      let s := if st.1 > 0 then st.2 ++ toString st.1 else st.2
      (0, s.push (pieceChar p))
    | none => (st.1 + 1, st.2)) (0, "")
  if fin.1 > 0 then fin.2 ++ toString fin.1 else fin.2

/-- The board field of the FEN string: rows 0..7 joined by '/'
(implementation.cpp:394-413). -/
def fenBoard (b : Board) : String :=
  String.intercalate "/" ((List.range 8).map (fenRow b))

/-- Method `getCastlingString` (implementation.cpp:526-537). -/
def castlingString (g : GameState) : String :=
  let s :=
    (if !g.whiteKingMoved then
      (if !g.whiteRookMoved0 then "K" else "") ++
      (if !g.whiteRookMoved1 then "Q" else "") else "") ++
    (if !g.blackKingMoved then
      (if !g.blackRookMoved0 then "k" else "") ++
      (if !g.blackRookMoved1 then "q" else "") else "")
  if s = "" then "-" else s

/-- Method `getFEN` (implementation.cpp:389-436): board field, active
color, castling field, en-passant square, half-move clock, full-move
number, space separated. -/
def getFEN (g : GameState) : String :=
  fenBoard g.board ++ " " ++ (if g.currentPlayer = WHITE then "w" else "b") ++ " " ++
    castlingString g ++ " " ++ g.enPassantTarget.toAlg ++ " " ++
    toString g.halfMoveClock ++ " " ++ toString g.fullMoveNumber

/-- The observable behavior of `positionHistory[fen]++`
(implementation.cpp:498): bump the entry, default-inserting 0 first. -/
def bumpKey (h : List (String × Nat)) (k : String) : List (String × Nat) :=
  match h with
  | [] => [(k, 1)]
  | e :: t => if e.1 = k then (e.1, e.2 + 1) :: t else e :: bumpKey t k

/-- Method `executeMove` (implementation.cpp:464-480): record any
captured occupant of the destination, move the piece on the board, set
the mover's `hasMoved` through its pointer (the object sits at `toPos`
when the board move happened, and still at `fromPos` when `movePiece`
no-opped on an off-board destination), push the move record, flip the
player. -/
def executeMove (g : GameState) (m : Move) : GameState :=
  let captured := getPiece g.board m.toPos
  let m1 := { m with capturedPiece := captured }
  let b1 := movePiece g.board m.fromPos m.toPos
  let moverSq := if m.fromPos.isValid && m.toPos.isValid then m.toPos else m.fromPos
  let b2 := mapAt b1 moverSq (fun p => { p with hasMoved := true })
  { g with
    board := b2
    moveHistory := m1 :: g.moveHistory
    currentPlayer := opponent g.currentPlayer }

/-- Method `updateGameState` (implementation.cpp:482-499): reset the
half-move clock on a capture or pawn move, else increment; bump the
full-move number after Black's move; then record the (already updated)
FEN in the position history.  The history is never empty here (the
method runs right after `executeMove`); the empty branch mirrors the
fact that `back()` on an empty vector is never reached. -/
def updateGameState (g : GameState) : GameState :=
  match g.moveHistory with
  | [] => g
  | m :: _ =>
    let clock := if m.capturedPiece.isSome || m.piece.type = PAWN then 0
                 else g.halfMoveClock + 1
    let full := if g.currentPlayer = WHITE then g.fullMoveNumber + 1 else g.fullMoveNumber
    let g1 := { g with halfMoveClock := clock, fullMoveNumber := full }
    { g1 with positionHistory := bumpKey g1.positionHistory (getFEN g1) }

/-- Method `makeMove` (implementation.cpp:228-258): reject when the
source square is empty or the piece is not the current player's; reject
when the destination is not pseudo-legal; otherwise build the move
record, run the special-case handlers (`handleCastling`,
`handleEnPassant`, `handlePromotion` — all empty stubs in the source),
execute and update.  No king-safety test appears anywhere on this
path. -/
def makeMove (g : GameState) (f t : Position) : Bool × GameState :=
  match getPiece g.board f with
  | none => (false, g)
  | some piece =>
    if piece.color ≠ g.currentPlayer then (false, g)
    else if !(canMoveTo piece t g.board) then (false, g)
    else
      let m : Move :=
        { fromPos := f, toPos := t, piece := piece, capturedPiece := none,
          isCastling := false, isEnPassant := false, isPromotion := false,
          promotionType := none }
      (true, updateGameState (executeMove g m))

/-- Method `undoMove` (implementation.cpp:369-387): pop the last move,
move the piece back, re-install the recorded captured piece (the C++
wraps the stored raw pointer — which dangles, since the capture
destroyed the object; the value it recorded is restored here), toggle
the mover's `hasMoved` through its pointer (the object is back at
`fromPos`), and flip the player.  Nothing else is touched: the half-move
clock, full-move number and position history keep their post-move
values. -/
def undoMove (g : GameState) : GameState :=
  match g.moveHistory with
  | [] => g
  | m :: rest =>
    let b1 := movePiece g.board m.toPos m.fromPos
    let b2 := match m.capturedPiece with
      | some cp => setPiece b1 m.toPos (some cp)
      | none => b1
    let b3 := mapAt b2 m.fromPos (fun p => { p with hasMoved := !p.hasMoved })
    { g with board := b3, moveHistory := rest, currentPlayer := opponent g.currentPlayer }

/-- The back-rank piece kind at a column of the standard initial
arrangement. -/
def backRank (c : Int) : PieceType :=
  if c = 0 || c = 7 then ROOK
  else if c = 1 || c = 6 then KNIGHT
  else if c = 2 || c = 5 then BISHOP
  else if c = 3 then QUEEN
  else KING

/-- The initial board.  The pawn ranks (rows 1 and 6) are from
`initializeBoard` (implementation.cpp:439-450); the back ranks are
Modelled from the spec: the source stubs the rest of the setup with
"... (implementation for other pieces)", and the spec's fool's-mate and
initial-position properties presuppose the standard chess arrangement. -/
def initBoard : Board := fun pos =>
  if !pos.isValid then none
  else if pos.row = 1 then some ⟨BLACK, pos, false, PAWN⟩
  else if pos.row = 6 then some ⟨WHITE, pos, false, PAWN⟩
  else if pos.row = 0 then some ⟨BLACK, pos, false, backRank pos.col⟩
  else if pos.row = 7 then some ⟨WHITE, pos, false, backRank pos.col⟩
  else none

/-- The `GameState` constructor (implementation.cpp:223-226); see the
structure doc comment for the uninitialized fields. -/
def initialGameState : GameState :=
  { board := initBoard
    currentPlayer := WHITE
    moveHistory := []
    whiteKingMoved := false
    blackKingMoved := false
    whiteRookMoved0 := false
    whiteRookMoved1 := false
    blackRookMoved0 := false
    blackRookMoved1 := false
    enPassantTarget := ⟨0, 0⟩
    halfMoveClock := 0
    fullMoveNumber := 1
    positionHistory := [] }

/-- The claim-side position key of claim C6 and of the spec's glossary:
"pieces, side to move, castling rights and en-passant target" — the
first four FEN fields, without the two clocks. -/
def positionKey4 (g : GameState) : String :=
  fenBoard g.board ++ " " ++ (if g.currentPlayer = WHITE then "w" else "b") ++ " " ++
    castlingString g ++ " " ++ g.enPassantTarget.toAlg

/-- A fresh, un-moved piece sitting on a square; its stored `position`
field agrees with the square, as after `initializeBoard`'s placements. -/
def pieceAt (c : Color) (r co : Int) (t : PieceType) : Piece :=
  ⟨c, ⟨r, co⟩, false, t⟩

/-- A board holding exactly the listed pieces, each on its stored
square. -/
def boardOf (ps : List Piece) : Board :=
  fun q => ps.find? (fun p => p.position = q)

/-- White king e1, white pawn h2, black pawn on d2: White is in check
and the pawn move h2-h3 does nothing about it. -/
def checkIgnoredState : GameState :=
  { initialGameState with
    board := boardOf [pieceAt WHITE 7 4 KING, pieceAt WHITE 6 7 PAWN,
                      pieceAt BLACK 6 3 PAWN] }

/-- White king e1, white pawn d2, black bishop on b4: the pawn is
pinned along the b4-e1 diagonal. -/
def pinState : GameState :=
  { initialGameState with
    board := boardOf [pieceAt WHITE 7 4 KING, pieceAt WHITE 6 3 PAWN,
                      pieceAt BLACK 4 1 BISHOP] }

def cornerKing : Piece := pieceAt BLACK 0 0 KING

/-- Black king a8 against a white queen on b6: a textbook stalemate —
Black is not in check and every king move walks into the queen. -/
def cornerState : GameState :=
  { initialGameState with
    board := boardOf [cornerKing, pieceAt WHITE 2 1 QUEEN] }

def escPawn : Piece := pieceAt WHITE 7 2 PAWN

/-- White king e1 checked by a black pawn on d2 that the white pawn on
c1 can capture: check with a legal escape. -/
def escState : GameState :=
  { initialGameState with
    board := boardOf [pieceAt WHITE 7 4 KING, escPawn, pieceAt BLACK 6 3 PAWN] }

/-- The fool's-mate submissions f2f4, e7e6, g2g4, d8h4 played from the
start (Position notation "f2" is row 6, col 5, and so on). -/
def fmAfter1 : GameState := (makeMove initialGameState ⟨6, 5⟩ ⟨4, 5⟩).2

def fmAfter2 : GameState := (makeMove fmAfter1 ⟨1, 4⟩ ⟨2, 4⟩).2

def fmAfter3 : GameState := (makeMove fmAfter2 ⟨6, 6⟩ ⟨4, 6⟩).2

def fmAfter4 : GameState := (makeMove fmAfter3 ⟨0, 3⟩ ⟨4, 7⟩).2

/-- The e2e4, e7e5 opening for the undo/redo scenario. -/
def c5g1 : GameState := (makeMove initialGameState ⟨6, 4⟩ ⟨4, 4⟩).2

def c5g2 : GameState := (makeMove c5g1 ⟨1, 4⟩ ⟨3, 4⟩).2

def c5g3 : GameState := undoMove c5g2

def c5g4 : GameState := (makeMove c5g3 ⟨1, 4⟩ ⟨3, 4⟩).2

/-- Runs a list of move submissions, conjoining the acceptance flags. -/
def playAll (g : GameState) (l : List (Position × Position)) : Bool × GameState :=
  l.foldl (fun acc mv =>
    let r := makeMove acc.2 mv.1 mv.2
    (acc.1 && r.1, r.2)) (true, g)

/-- Ten plies from the start in which both knights hop out and shuttle
(Ng1f3, Nb8c6, Nf3h3, Nc6a6, Nh3f3, Na6c6, and the same four-ply cycle
once more): the position after ply 2 recurs after plies 6 and 10. -/
def knightShuttle : List (Position × Position) :=
  [(⟨7, 6⟩, ⟨5, 5⟩), (⟨0, 1⟩, ⟨2, 2⟩), (⟨5, 5⟩, ⟨5, 7⟩), (⟨2, 2⟩, ⟨2, 0⟩),
   (⟨5, 7⟩, ⟨5, 5⟩), (⟨2, 0⟩, ⟨2, 2⟩), (⟨5, 5⟩, ⟨5, 7⟩), (⟨2, 2⟩, ⟨2, 0⟩),
   (⟨5, 7⟩, ⟨5, 5⟩), (⟨2, 0⟩, ⟨2, 2⟩)]

def shuttleAfter (n : Nat) : GameState :=
  (playAll initialGameState (knightShuttle.take n)).2

/-- A game whose half-move clock shows 50 plies without capture or pawn
move, i.e. 25 full moves. -/
def stClock50 : GameState := { initialGameState with halfMoveClock := 50 }

def whiteKnight : Piece := pieceAt WHITE 7 6 KNIGHT

/-- A lone knight with the clock at 49 plies: one more quiet knight
move brings the clock to 50. -/
def loneKnightState : GameState :=
  { initialGameState with board := boardOf [whiteKnight], halfMoveClock := 49 }

def z9 : String := "z9"

theorem opponent_opponent (c : Color) : opponent (opponent c) = c := by
  cases c <;> rfl

theorem makeMove_success_eq (g : GameState) (f t : Position) (p : Piece)
    (hp : getPiece g.board f = some p) (hc : p.color = g.currentPlayer)
    (hm : canMoveTo p t g.board = true) :
    makeMove g f t = (true, updateGameState (executeMove g
      { fromPos := f, toPos := t, piece := p, capturedPiece := none,
        isCastling := false, isEnPassant := false, isPromotion := false,
        promotionType := none })) := by
  unfold makeMove
  rw [hp]
  simp [hc, hm]

theorem makeMove_fst_true_iff (g : GameState) (f t : Position) :
    (makeMove g f t).1 = true ↔
      ∃ p, getPiece g.board f = some p ∧ p.color = g.currentPlayer ∧
        canMoveTo p t g.board = true := by
  constructor
  · intro h
    unfold makeMove at h
    cases hp : getPiece g.board f with
    | none => rw [hp] at h; simp at h
    | some p =>
      rw [hp] at h
      by_cases hc : p.color = g.currentPlayer
      · by_cases hm : canMoveTo p t g.board = true
        · exact ⟨p, rfl, hc, hm⟩
        · simp [hc, hm] at h
      · simp [hc] at h
  · rintro ⟨p, hp, hc, hm⟩
    rw [makeMove_success_eq g f t p hp hc hm]

theorem makeMove_fail_eq (g : GameState) (f t : Position)
    (h : (makeMove g f t).1 = false) : makeMove g f t = (false, g) := by
  unfold makeMove at h ⊢
  cases hp : getPiece g.board f with
  | none => rfl
  | some p =>
    rw [hp] at h
    by_cases hc : p.color = g.currentPlayer
    · by_cases hm : canMoveTo p t g.board = true
      · simp [hc, hm] at h
      · simp [hc, hm]
    · simp [hc]

theorem movePiece_ne (b : Board) (f t q : Position) (h1 : q ≠ f) (h2 : q ≠ t) :
    movePiece b f t q = b q := by
  unfold movePiece
  split_ifs <;> simp [h1, h2]

theorem setPiece_ne (b : Board) (pos : Position) (v : Option Piece) (q : Position)
    (h : q ≠ pos) : setPiece b pos v q = b q := by
  unfold setPiece
  split_ifs <;> simp [h]

theorem mapAt_ne (b : Board) (pos : Position) (gg : Piece → Piece) (q : Position)
    (h : q ≠ pos) : mapAt b pos gg q = b q := by
  unfold mapAt
  simp [h]

theorem updateGameState_board (g : GameState) : (updateGameState g).board = g.board := by
  unfold updateGameState
  split <;> rfl

theorem updateGameState_currentPlayer (g : GameState) :
    (updateGameState g).currentPlayer = g.currentPlayer := by
  unfold updateGameState
  split <;> rfl

theorem updateGameState_moveHistory (g : GameState) :
    (updateGameState g).moveHistory = g.moveHistory := by
  unfold updateGameState
  split <;> rfl

theorem updateGameState_cons_clock (g : GameState) (m : Move) (rest : List Move)
    (hh : g.moveHistory = m :: rest) :
    (updateGameState g).halfMoveClock =
      if m.capturedPiece.isSome || m.piece.type = PAWN then 0 else g.halfMoveClock + 1 := by
  unfold updateGameState
  rw [hh]

theorem undoMove_components (g : GameState) (m : Move) (rest : List Move)
    (hh : g.moveHistory = m :: rest) :
    (undoMove g).currentPlayer = opponent g.currentPlayer ∧
    (undoMove g).moveHistory = rest ∧
    (undoMove g).halfMoveClock = g.halfMoveClock ∧
    (undoMove g).fullMoveNumber = g.fullMoveNumber ∧
    (undoMove g).positionHistory = g.positionHistory := by
  unfold undoMove
  rw [hh]
  exact ⟨rfl, rfl, rfl, rfl, rfl⟩

theorem undoMove_board_ne (g : GameState) (m : Move) (rest : List Move)
    (hh : g.moveHistory = m :: rest) (q : Position)
    (h1 : q ≠ m.fromPos) (h2 : q ≠ m.toPos) :
    (undoMove g).board q = g.board q := by
  unfold undoMove
  rw [hh]
  cases hcp : m.capturedPiece with
  | none =>
    simp only [hcp]
    rw [mapAt_ne _ _ _ _ h1, movePiece_ne _ _ _ _ h2 h1]
  | some cp =>
    simp only [hcp]
    rw [mapAt_ne _ _ _ _ h1, setPiece_ne _ _ _ _ h2, movePiece_ne _ _ _ _ h2 h1]

theorem executeMove_board_ne (g : GameState) (m : Move) (q : Position)
    (h1 : q ≠ m.fromPos) (h2 : q ≠ m.toPos) :
    (executeMove g m).board q = g.board q := by
  show mapAt (movePiece g.board m.fromPos m.toPos)
      (if m.fromPos.isValid && m.toPos.isValid then m.toPos else m.fromPos) _ q = g.board q
  by_cases hv : (m.fromPos.isValid && m.toPos.isValid) = true
  · rw [if_pos hv, mapAt_ne _ _ _ _ h2, movePiece_ne _ _ _ _ h1 h2]
  · rw [if_neg hv, mapAt_ne _ _ _ _ h1, movePiece_ne _ _ _ _ h1 h2]

/-- C1 (counterexample): in `checkIgnoredState` White is in check and
submits the unrelated pawn move h2-h3; `makeMove` accepts it, the board
is mutated, and White's king is still attacked in the resulting
position — so `makeMove` performs no king-safety trial and does not
reject with `LeavesKingInCheck`. -/
theorem makeMove_accepts_own_king_attack :
    (makeMove checkIgnoredState ⟨6, 7⟩ ⟨5, 7⟩).1 = true ∧
    isCheck checkIgnoredState.board WHITE = true ∧
    isCheck (makeMove checkIgnoredState ⟨6, 7⟩ ⟨5, 7⟩).2.board WHITE = true ∧
    (getPiece (makeMove checkIgnoredState ⟨6, 7⟩ ⟨5, 7⟩).2.board ⟨5, 7⟩).isSome = true ∧
    getPiece checkIgnoredState.board ⟨5, 7⟩ = none := by
  exact ⟨by decide, by decide, by decide, by decide, by decide⟩

/-- C1 (amended): `makeMove` accepts a submission exactly when the
source square holds a piece of the current player whose pseudo-legal
move set contains the destination; no king-safety condition enters the
decision. -/
theorem makeMove_acceptance_iff (g : GameState) (f t : Position) :
    (makeMove g f t).1 = true ↔
      ∃ p, getPiece g.board f = some p ∧ p.color = g.currentPlayer ∧
        canMoveTo p t g.board = true := by
  exact makeMove_fst_true_iff g f t

/-- C2: the fool's-mate sequence f2f4, e7e6, g2g4, d8h4 is accepted
move by move, yet `isCheckmate(WHITE)` comes back `false` (the queen's
stored position is never updated, so after d8h4 her attacks are still
computed from d8 and White is not even seen as in check); and in
`escState`, where White is in check but has a legal capture of the
checking pawn, `isCheckmate(WHITE)` comes back `true` because the
escape test reads the live board instead of the trial copy. -/
theorem isCheckmate_divergence :
    (makeMove initialGameState ⟨6, 5⟩ ⟨4, 5⟩).1 = true ∧
    (makeMove fmAfter1 ⟨1, 4⟩ ⟨2, 4⟩).1 = true ∧
    (makeMove fmAfter2 ⟨6, 6⟩ ⟨4, 6⟩).1 = true ∧
    (makeMove fmAfter3 ⟨0, 3⟩ ⟨4, 7⟩).1 = true ∧
    isCheckmate fmAfter4 WHITE = false ∧
    isCheckmate fmAfter4 BLACK = false ∧
    isCheck escState.board WHITE = true ∧
    (⟨6, 3⟩ : Position) ∈ pieceMoves escPawn escState.board ∧
    isCheck (movePiece escState.board ⟨7, 2⟩ ⟨6, 3⟩) WHITE = false ∧
    isCheckmate escState WHITE = true := by
  exact ⟨by decide, by decide, by decide, by decide, by decide,
         by decide, by decide, by decide, by decide, by decide⟩

/-- C3: in `pinState` the pawn on d2 is pinned, yet
`getValidMoves(d2)` returns d3, and playing it leaves White's own king
in check — the king-safety filter tests the live board, never the trial
copy, so in any non-check position every pseudo-legal move passes. -/
theorem getValidMoves_returns_self_check_move :
    (⟨5, 3⟩ : Position) ∈ getValidMovesAt pinState ⟨6, 3⟩ ∧
    isCheck (movePiece pinState.board ⟨6, 3⟩ ⟨5, 3⟩) WHITE = true := by
  exact ⟨by decide, by decide⟩

/-- C4: `cornerState` is a genuine stalemate — Black is not in check,
the king has pseudo-legal moves, and every one of them leaves Black in
check — yet `isStalemate(BLACK)` comes back `false`, because the method
only asks whether any pseudo-legal move exists and never applies the
king-safety filter. -/
theorem isStalemate_misses_true_stalemate :
    getPiece cornerState.board ⟨0, 0⟩ = some cornerKing ∧
    isCheck cornerState.board BLACK = false ∧
    (pieceMoves cornerKing cornerState.board).isEmpty = false ∧
    (pieceMoves cornerKing cornerState.board).all
      (fun m => isCheck (movePiece cornerState.board ⟨0, 0⟩ m) BLACK) = true ∧
    isStalemate cornerState BLACK = false := by
  exact ⟨by decide, by decide, by decide, by decide, by decide⟩

/-- C5 (counterexample): after e2e4, e7e5 the FEN ends in full-move
number 2; undoing e7e5 and re-submitting the identical move succeeds
but yields a FEN ending in 3, because `undoMove` never decrements the
counters updated at commit. -/
theorem undo_redo_fen_differs :
    (makeMove initialGameState ⟨6, 4⟩ ⟨4, 4⟩).1 = true ∧
    (makeMove c5g1 ⟨1, 4⟩ ⟨3, 4⟩).1 = true ∧
    (makeMove c5g3 ⟨1, 4⟩ ⟨3, 4⟩).1 = true ∧
    getFEN c5g4 ≠ getFEN c5g2 := by
  exact ⟨by decide, by decide, by decide, by decide⟩

/-- C5 (amended): after any successful `makeMove`, `undoMove` reverts
the current player and the move history and leaves every square other
than the move's source and destination untouched, but the half-move
clock, full-move number and repetition history keep their post-move
values — they are not decremented. -/
theorem undoMove_after_makeMove (g : GameState) (f t : Position)
    (h : (makeMove g f t).1 = true) :
    (undoMove (makeMove g f t).2).currentPlayer = g.currentPlayer ∧
    (undoMove (makeMove g f t).2).moveHistory = g.moveHistory ∧
    (undoMove (makeMove g f t).2).halfMoveClock = (makeMove g f t).2.halfMoveClock ∧
    (undoMove (makeMove g f t).2).fullMoveNumber = (makeMove g f t).2.fullMoveNumber ∧
    (undoMove (makeMove g f t).2).positionHistory = (makeMove g f t).2.positionHistory ∧
    ∀ q : Position, q ≠ f → q ≠ t → (undoMove (makeMove g f t).2).board q = g.board q := by
  obtain ⟨p, hp, hc, hm⟩ := (makeMove_fst_true_iff g f t).1 h
  rw [makeMove_success_eq g f t p hp hc hm]
  have hXh : (updateGameState (executeMove g
      { fromPos := f, toPos := t, piece := p, capturedPiece := none,
        isCastling := false, isEnPassant := false, isPromotion := false,
        promotionType := none })).moveHistory =
      ({ fromPos := f, toPos := t, piece := p, capturedPiece := getPiece g.board t,
         isCastling := false, isEnPassant := false, isPromotion := false,
         promotionType := none } : Move) :: g.moveHistory := by
    rw [updateGameState_moveHistory]
    rfl
  obtain ⟨c1, c2, c3, c4, c5⟩ := undoMove_components _ _ _ hXh
  refine ⟨?_, c2, c3, c4, c5, ?_⟩
  · rw [c1, updateGameState_currentPlayer]
    exact opponent_opponent _
  · intro q hqf hqt
    rw [undoMove_board_ne _ _ _ hXh q hqf hqt, updateGameState_board]
    exact executeMove_board_ne g _ q hqf hqt

/-- C5 (witness): the amended undo facts evaluated after e2e4 from the
start: the player is back to White and square a8 is untouched. -/
theorem undoMove_after_makeMove_witness :
    (undoMove (makeMove initialGameState ⟨6, 4⟩ ⟨4, 4⟩).2).currentPlayer =
      initialGameState.currentPlayer ∧
    (undoMove (makeMove initialGameState ⟨6, 4⟩ ⟨4, 4⟩).2).board ⟨0, 0⟩ =
      initialGameState.board ⟨0, 0⟩ := by
  have h := undoMove_after_makeMove initialGameState ⟨6, 4⟩ ⟨4, 4⟩ (by decide)
  exact ⟨h.1, h.2.2.2.2.2 ⟨0, 0⟩ (by decide) (by decide)⟩

/-- C6: in the ten-ply knight shuttle every submission is accepted and
the position after ply 2 (by the claim's four-field key: pieces, side
to move, castling rights, en-passant target) recurs after plies 6 and
10 — three occurrences — yet neither `isThreefoldRepetition` nor
`isDraw` fires, because the code keys repetition by the full FEN, whose
clock fields differ at every ply. -/
theorem threefold_repetition_never_fires :
    (playAll initialGameState knightShuttle).1 = true ∧
    positionKey4 (shuttleAfter 2) = positionKey4 (shuttleAfter 6) ∧
    positionKey4 (shuttleAfter 6) = positionKey4 (shuttleAfter 10) ∧
    (shuttleAfter 10).positionHistory.all (fun e => e.2 = 1) = true ∧
    isThreefoldRepetition (shuttleAfter 10) = false ∧
    isDraw (shuttleAfter 10) = false := by
  exact ⟨by decide, by decide, by decide, by decide, by decide, by decide⟩

/-- C7 (counterexample): with the half-move clock at 50 — 50 plies,
i.e. 25 full moves, not the claimed 50 full moves (100 ply) — and no
other draw condition holding, `isDraw()` already returns true. -/
theorem fifty_ply_draw :
    stClock50.halfMoveClock = 50 ∧
    isThreefoldRepetition stClock50 = false ∧
    isInsufficientMaterial stClock50 = false ∧
    isDraw stClock50 = true := by
  exact ⟨by decide, by decide, by decide, by decide⟩

/-- C7 (amended): on every accepted move the half-move clock resets to
zero when the destination was occupied (a capture) or the mover is a
pawn, and otherwise increments by one; and `isDraw()` is true as soon
as the clock is at least 50 — that is, after 50 plies (25 full moves)
without capture or pawn advance. -/
theorem halfMoveClock_behavior (g : GameState) (f t : Position) (p : Piece)
    (hp : getPiece g.board f = some p) (h : (makeMove g f t).1 = true) :
    (makeMove g f t).2.halfMoveClock =
      (if (getPiece g.board t).isSome || p.type = PAWN then 0 else g.halfMoveClock + 1) ∧
    (50 ≤ (makeMove g f t).2.halfMoveClock → isDraw (makeMove g f t).2 = true) := by
  obtain ⟨p2, hp2, hc, hm⟩ := (makeMove_fst_true_iff g f t).1 h
  rw [hp] at hp2
  cases hp2
  rw [makeMove_success_eq g f t p hp hc hm]
  constructor
  · rw [updateGameState_cons_clock _
      ({ fromPos := f, toPos := t, piece := p, capturedPiece := getPiece g.board t,
         isCastling := false, isEnPassant := false, isPromotion := false,
         promotionType := none } : Move) g.moveHistory rfl]
    rfl
  · intro h50
    simp only [isDraw, isInsufficientMaterial, Bool.false_or, Bool.or_eq_true]
    right
    exact decide_eq_true h50

/-- C7 (witness): a quiet knight move with the clock at 49 is accepted,
brings the clock to 50, and `isDraw` reports true. -/
theorem halfMoveClock_behavior_witness :
    (makeMove loneKnightState ⟨7, 6⟩ ⟨5, 5⟩).1 = true ∧
    (makeMove loneKnightState ⟨7, 6⟩ ⟨5, 5⟩).2.halfMoveClock = 50 ∧
    isDraw (makeMove loneKnightState ⟨7, 6⟩ ⟨5, 5⟩).2 = true := by
  have h := halfMoveClock_behavior loneKnightState ⟨7, 6⟩ ⟨5, 5⟩ whiteKnight
    (by decide) (by decide)
  exact ⟨by decide, by decide, h.2 (by decide)⟩

/-- C8 (counterexample): the two-character string z9 is not of the form
a-h followed by 1-8, yet the `Position` string constructor accepts it
without failing, producing the out-of-range coordinate (-1, 25). -/
theorem parse_accepts_out_of_range :
    Position.ofAlg z9 = some ⟨-1, 25⟩ ∧
    z9.length = 2 ∧
    (Position.ofAlg z9).isSome = true := by
  exact ⟨by decide, by decide, by decide⟩

/-- C8 (amended): construction of a `Position` from a string fails with
the invalid-argument error exactly when the string's length is not 2;
any two-character string — including every one of the form a-h followed
by 1-8, but also out-of-range ones — is accepted. -/
theorem parse_succeeds_iff_length_two (s : String) :
    (Position.ofAlg s).isSome = true ↔ s.length = 2 := by
  rcases s with ⟨l⟩
  rcases l with _ | ⟨a, _ | ⟨b, _ | ⟨c, rest⟩⟩⟩ <;>
    simp [Position.ofAlg, String.length]

/-- C9: for every valid coordinate (both components in 0..7), parsing
the two-character string produced by `getNotation` gives back the same
coordinate. -/
theorem parse_of_toAlg_roundtrip (p : Position) (h : p.isValid = true) :
    Position.ofAlg (Position.toAlg p) = some p := by
  obtain ⟨r, c⟩ := p
  simp only [Position.isValid, Bool.and_eq_true, decide_eq_true_eq] at h
  obtain ⟨⟨⟨h1, h2⟩, h3⟩, h4⟩ := h
  interval_cases r <;> interval_cases c <;> rfl

/-- C9 (witness): the round trip evaluated at the coordinate (0, 0),
whose algebraic name is a8. -/
theorem parse_of_toAlg_roundtrip_witness :
    (⟨0, 0⟩ : Position).isValid = true ∧
    Position.ofAlg (Position.toAlg ⟨0, 0⟩) = some ⟨0, 0⟩ := by
  exact ⟨by decide, parse_of_toAlg_roundtrip ⟨0, 0⟩ (by decide)⟩

/-- C10: whenever `makeMove` reports failure — empty source, opponent's
piece, or a destination outside the pseudo-legal set — the returned
state is exactly the input state: every rejecting path returns before
any mutation. -/
theorem makeMove_fail_preserves (g : GameState) (f t : Position)
    (h : (makeMove g f t).1 = false) : (makeMove g f t).2 = g := by
  rw [makeMove_fail_eq g f t h]

/-- C10 (witness): submitting from the empty square d5 in the initial
position fails and returns the initial state unchanged. -/
theorem makeMove_fail_preserves_witness :
    (makeMove initialGameState ⟨3, 3⟩ ⟨4, 4⟩).1 = false ∧
    (makeMove initialGameState ⟨3, 3⟩ ⟨4, 4⟩).2 = initialGameState := by
  exact ⟨by decide, makeMove_fail_preserves initialGameState ⟨3, 3⟩ ⟨4, 4⟩ (by decide)⟩

end Chess
